import Mathlib

/-!
# Pong_A2: a shallow embedding of the game simulation

The definitions below follow `src/Pong_A2.cpp`; every field keeps the name it
has in the source.  The C++ type `int` is modelled by `Int`: overflow of a
signed `int` is undefined behaviour in C++ and is not modelled.  Rendering,
fonts and delays do not influence the simulated state and are left out.
-/

namespace Pong

/-- The constant `WINDOW_WIDTH` of the source. -/
@[simp] def WINDOW_WIDTH : Int := 800

/-- The constant `WINDOW_HEIGHT` of the source. -/
@[simp] def WINDOW_HEIGHT : Int := 600

/-- The rectangle record `SDL_Rect` used for paddles and ball. -/
structure SDL_Rect where
  x : Int
  y : Int
  w : Int
  h : Int
deriving DecidableEq, Repr

/-- Modelled from the spec: `SDL_HasIntersection` belongs to the SDL2 library
and is not among the sources; section 4.2 describes it as an axis-aligned
bounding-box intersection test.  As in SDL2, a rectangle without area
intersects nothing, and rectangles that merely share an edge do not
intersect. -/
def SDL_HasIntersection (a b : SDL_Rect) : Bool :=
  if a.w ≤ 0 ∨ a.h ≤ 0 ∨ b.w ≤ 0 ∨ b.h ≤ 0 then false
  else if min (a.x + a.w) (b.x + b.w) ≤ max a.x b.x then false
  else if min (a.y + a.h) (b.y + b.h) ≤ max a.y b.y then false
  else true

/-! ## Paddle -/

/-- The class `Paddle`: its only data member is the rectangle. -/
structure Paddle where
  rect : SDL_Rect
deriving DecidableEq, Repr

namespace Paddle

/-- The constant `Paddle::WIDTH`. -/
@[simp] def WIDTH : Int := 20

/-- The constant `Paddle::HEIGHT`. -/
@[simp] def HEIGHT : Int := 100

/-- The constant `Paddle::SPEED`. -/
@[simp] def SPEED : Int := 10

/-- The constructor `Paddle(int x, int y)`. -/
def new (x y : Int) : Paddle := { rect := { x := x, y := y, w := WIDTH, h := HEIGHT } }

/-- The method `Paddle::moveUp`. -/
def moveUp (p : Paddle) : Paddle :=
  if p.rect.y > 0 then { rect := { p.rect with y := p.rect.y - SPEED } } else p

/-- The method `Paddle::moveDown`. -/
def moveDown (p : Paddle) (windowHeight : Int) : Paddle :=
  if p.rect.y < windowHeight - HEIGHT then { rect := { p.rect with y := p.rect.y + SPEED } } else p

/-- The method `Paddle::moveLeft`. -/
def moveLeft (p : Paddle) : Paddle :=
  if p.rect.x > 0 then { rect := { p.rect with x := p.rect.x - SPEED } } else p

/-- The method `Paddle::moveRight`. -/
def moveRight (p : Paddle) (windowWidth : Int) : Paddle :=
  if p.rect.x < windowWidth - WIDTH then { rect := { p.rect with x := p.rect.x + SPEED } } else p

end Paddle

/-! ## Ball -/

/-- The class `Ball`: rectangle and the two velocity components. -/
structure Ball where
  rect : SDL_Rect
  velX : Int
  velY : Int
deriving DecidableEq, Repr

namespace Ball

/-- The constant `Ball::SIZE`. -/
@[simp] def SIZE : Int := 20

/-- The constant `Ball::BASE_SPEED`. -/
@[simp] def BASE_SPEED : Int := 3

/-- The constructor `Ball(int x, int y)`. -/
def new (x y : Int) : Ball :=
  { rect := { x := x, y := y, w := SIZE, h := SIZE }, velX := BASE_SPEED, velY := BASE_SPEED }

/-- The method `Ball::reset`; `Int.tdiv` is the truncating division of C++. -/
def reset (b : Ball) (windowWidth windowHeight : Int) (goRight : Bool) : Ball :=
  { rect := { b.rect with
                x := Int.tdiv windowWidth 2 - Int.tdiv SIZE 2
                y := Int.tdiv windowHeight 2 - Int.tdiv SIZE 2 }
    velX := if goRight then BASE_SPEED else -BASE_SPEED
    velY := BASE_SPEED }

/-- The method `Ball::update`. -/
def update (b : Ball) : Ball :=
  { b with rect := { b.rect with x := b.rect.x + b.velX, y := b.rect.y + b.velY } }

/-- The method `Ball::checkWallCollision`. -/
def checkWallCollision (b : Ball) (windowHeight : Int) : Ball :=
  if b.rect.y ≤ 0 ∨ b.rect.y + SIZE ≥ windowHeight then { b with velY := -b.velY } else b

/-- The method `Ball::checkPaddleCollision`. -/
def checkPaddleCollision (b : Ball) (paddle : Paddle) : Bool :=
  SDL_HasIntersection b.rect paddle.rect

end Ball

/-! ## Scoreboard -/

/-- The score copies held by the class `Scoreboard` (the texture is not modelled). -/
structure Scoreboard where
  leftScore : Int
  rightScore : Int
deriving DecidableEq, Repr

/-- The method `Scoreboard::updateScores`. -/
def Scoreboard.updateScores (_s : Scoreboard) (left right : Int) : Scoreboard :=
  { leftScore := left, rightScore := right }

/-! ## Game -/

/-- The simulated data members of the class `Game`. -/
structure Game where
  leftPaddle : Paddle
  rightPaddle : Paddle
  ball : Ball
  scoreboard : Scoreboard
  leftScore : Int
  rightScore : Int
  gameMode : Int
deriving DecidableEq, Repr

/-- The keyboard state sampled by `SDL_GetKeyboardState`, restricted to the
eight scancodes `handleInput` reads. -/
structure Keys where
  W : Bool
  S : Bool
  A : Bool
  D : Bool
  UP : Bool
  DOWN : Bool
  LEFT : Bool
  RIGHT : Bool
deriving DecidableEq, Repr

/-- No key held. -/
def Keys.none : Keys :=
  { W := false, S := false, A := false, D := false,
    UP := false, DOWN := false, LEFT := false, RIGHT := false }

/-- An event as far as the source inspects it: `e.type` and `e.key.keysym.sym`. -/
structure SDL_Event where
  type : Nat
  sym : Int
deriving DecidableEq, Repr

/-- The SDL2 event type `SDL_QUIT`. -/
@[simp] def SDL_QUIT : Nat := 0x100

/-- The SDL2 event type `SDL_KEYDOWN`. -/
@[simp] def SDL_KEYDOWN : Nat := 0x300

/-- The SDL2 key code `SDLK_p`. -/
@[simp] def SDLK_p : Int := 112

/-- The SDL2 key code `SDLK_q`. -/
@[simp] def SDLK_q : Int := 113

namespace Game

/-- The constructor `Game()`. -/
def new : Game :=
  { leftPaddle := Paddle.new 50 (Int.tdiv WINDOW_HEIGHT 2 - Int.tdiv Paddle.HEIGHT 2)
    rightPaddle := Paddle.new (WINDOW_WIDTH - 70) (Int.tdiv WINDOW_HEIGHT 2 - Int.tdiv Paddle.HEIGHT 2)
    ball := Ball.new (Int.tdiv WINDOW_WIDTH 2 - Int.tdiv Ball.SIZE 2)
                     (Int.tdiv WINDOW_HEIGHT 2 - Int.tdiv Ball.SIZE 2)
    scoreboard := { leftScore := 0, rightScore := 0 }
    leftScore := 0
    rightScore := 0
    gameMode := 0 }

/-- The state with which `run` enters its loop: the constructed game with
`gameMode` set to the value `displayMenu` returned. -/
def start (mode : Int) : Game := { new with gameMode := mode }

/-- The second half of `Game::handleInput` (from `SDL_GetKeyboardState` on):
the paddle moves commanded by the sampled key state. -/
def handleKeys (g : Game) (keystates : Keys) : Game :=
  let leftPaddle := g.leftPaddle
  let leftPaddle := if keystates.W then leftPaddle.moveUp else leftPaddle
  let leftPaddle := if keystates.S then leftPaddle.moveDown WINDOW_HEIGHT else leftPaddle
  let leftPaddle := if keystates.A then leftPaddle.moveLeft else leftPaddle
  let leftPaddle := if keystates.D then leftPaddle.moveRight WINDOW_WIDTH else leftPaddle
  let rightPaddle := g.rightPaddle
  let rightPaddle :=
    if g.gameMode = 1 then
      let rightPaddle := if keystates.UP then rightPaddle.moveUp else rightPaddle
      let rightPaddle := if keystates.DOWN then rightPaddle.moveDown WINDOW_HEIGHT else rightPaddle
      let rightPaddle := if keystates.LEFT then rightPaddle.moveLeft else rightPaddle
      let rightPaddle := if keystates.RIGHT then rightPaddle.moveRight WINDOW_WIDTH else rightPaddle
      rightPaddle
    else rightPaddle
  { g with leftPaddle := leftPaddle, rightPaddle := rightPaddle }

/-- The method `Game::update`. -/
def update (g : Game) : Game :=
  let ball := (g.ball.update).checkWallCollision WINDOW_HEIGHT
  let ball :=
    if ball.checkPaddleCollision g.leftPaddle || ball.checkPaddleCollision g.rightPaddle then
      { ball with velX := -ball.velX }
    else ball
  let rightPaddle :=
    if g.gameMode = 2 then
      let paddleCenter := g.rightPaddle.rect.y + Int.tdiv Paddle.HEIGHT 2
      let ballCenter := ball.rect.y + Int.tdiv Ball.SIZE 2
      if ballCenter < paddleCenter ∧ g.rightPaddle.rect.y > 0 then
        { rect := { g.rightPaddle.rect with y := g.rightPaddle.rect.y - Paddle.SPEED } }
      else if ballCenter > paddleCenter ∧ g.rightPaddle.rect.y + Paddle.HEIGHT < WINDOW_HEIGHT then
        { rect := { g.rightPaddle.rect with y := g.rightPaddle.rect.y + Paddle.SPEED } }
      else g.rightPaddle
    else g.rightPaddle
  let scoreUpdated := false
  let rightScore := if ball.rect.x < 0 then g.rightScore + 1 else g.rightScore
  let scoreUpdated := if ball.rect.x < 0 then true else scoreUpdated
  let leftScore := if ball.rect.x + Ball.SIZE > WINDOW_WIDTH then g.leftScore + 1 else g.leftScore
  let scoreUpdated := if ball.rect.x + Ball.SIZE > WINDOW_WIDTH then true else scoreUpdated
  if scoreUpdated then
    { leftPaddle := g.leftPaddle
      rightPaddle := rightPaddle
      ball := ball.reset WINDOW_WIDTH WINDOW_HEIGHT (decide (ball.rect.x < 0))
      scoreboard := g.scoreboard.updateScores leftScore rightScore
      leftScore := leftScore
      rightScore := rightScore
      gameMode := g.gameMode }
  else
    { leftPaddle := g.leftPaddle
      rightPaddle := rightPaddle
      ball := ball
      scoreboard := g.scoreboard
      leftScore := leftScore
      rightScore := rightScore
      gameMode := g.gameMode }

/-- How a call of `pauseMenu` ends: it returns to its caller, the process
leaves through `exit(0)`, or the supplied events are used up while the loop is
still waiting for a resume. -/
inductive PauseResult where
  | resumed (g : Game) (rest : List (Option SDL_Event))
  | exited
  | paused (g : Game)
deriving DecidableEq, Repr

/-- The loops of `Game::pauseMenu`.  The list holds the results of the
successive calls of `SDL_PollEvent` (`none` for an empty queue, which ends the
inner loop); after the list the queue stays empty.  The Boolean is the local
variable `paused`.  Rendering of the overlay is left out. -/
def pauseLoop (g : Game) : Bool → List (Option SDL_Event) → PauseResult
  | true, [] => .paused g
  | false, [] => .resumed g []
  | paused, none :: rest => if paused then pauseLoop g true rest else .resumed g rest
  | paused, some e :: rest =>
    if e.type = SDL_QUIT then .exited
    else if e.type = SDL_KEYDOWN then
      if e.sym = SDLK_p then pauseLoop g false rest
      else if e.sym = SDLK_q then .exited
      else pauseLoop g paused rest
    else pauseLoop g paused rest

/-- The method `Game::pauseMenu`: the loop is entered with `paused = true`. -/
def pauseMenu (g : Game) (polls : List (Option SDL_Event)) : PauseResult :=
  pauseLoop g true polls

/-- How a call of `handleInput` (or one iteration of the loop of `run`) ends. -/
inductive Outcome where
  | returned (g : Game) (running : Bool) (rest : List (Option SDL_Event))
  | exited
  | paused (g : Game)
deriving DecidableEq, Repr

/-- The event loop at the head of `Game::handleInput`; `running` is the
reference parameter of the method. -/
def pollEvents (g : Game) (running : Bool) (polls : List (Option SDL_Event)) : Outcome :=
  match polls with
  | [] => .returned g running []
  | none :: rest => .returned g running rest
  | some e :: rest =>
    let running := if e.type = SDL_QUIT then false else running
    if e.type = SDL_KEYDOWN ∧ e.sym = SDLK_p then
      match h : pauseMenu g rest with
      | .resumed g' rest' => pollEvents g' running rest'
      | .exited => .exited
      | .paused g' => .paused g'
    else pollEvents g running rest
termination_by polls.length
decreasing_by
  · have key : ∀ (l : List (Option SDL_Event)) (p : Bool) (r : List (Option SDL_Event)),
        pauseLoop g p l = .resumed g' r → r.length ≤ l.length := by
      intro l
      induction l with
      | nil =>
        intro p r hp
        cases p <;> simp [pauseLoop] at hp
        simp [hp.2]
      | cons q tl ih =>
        intro p r hp
        cases q with
        | none =>
          cases p
          · simp [pauseLoop] at hp
            simp [← hp.2]
          · simp [pauseLoop] at hp
            have := ih true r hp
            simp; omega
        | some e =>
          simp only [pauseLoop] at hp
          split at hp
          · cases hp
          · split at hp
            · split at hp
              · have := ih false r hp
                simp; omega
              · split at hp
                · cases hp
                · have := ih p r hp
                  simp; omega
            · have := ih p r hp
              simp; omega
    have := key rest true rest' h
    simp; omega
  · simp

/-- The method `Game::handleInput`. -/
def handleInput (g : Game) (running : Bool) (polls : List (Option SDL_Event))
    (keystates : Keys) : Outcome :=
  match pollEvents g running polls with
  | .returned g' running' rest => .returned (g'.handleKeys keystates) running' rest
  | .exited => .exited
  | .paused g' => .paused g'

/-- One iteration of the loop of `Game::run`: `handleInput` followed by
`update` (rendering and the frame delay are left out). -/
def frame (g : Game) (running : Bool) (polls : List (Option SDL_Event))
    (keystates : Keys) : Outcome :=
  match handleInput g running polls keystates with
  | .returned g' running' rest => .returned g'.update running' rest
  | .exited => .exited
  | .paused g' => .paused g'

/-- The game state after an iteration of the loop of `run` that is neither
cut short by `exit` nor held in the pause menu: the key-state moves of
`handleInput`, then `update`. -/
def tick (g : Game) (keystates : Keys) : Game := (g.handleKeys keystates).update

/-- The game state after the iterations given by a list of key states. -/
def runTicks (g : Game) : List Keys → Game
  | [] => g
  | k :: ks => runTicks (g.tick k) ks

end Game

/-! ## The stages of `Game::update` -/

namespace Game

/-- The ball after the first two statements of `update`: advanced, then
checked against the walls. -/
def movedBall (g : Game) : Ball := (g.ball.update).checkWallCollision WINDOW_HEIGHT

/-- The condition under which `update` reverses the horizontal velocity. -/
def paddleHit (g : Game) : Bool :=
  g.movedBall.checkPaddleCollision g.leftPaddle || g.movedBall.checkPaddleCollision g.rightPaddle

/-- The ball after the paddle check of `update`. -/
def bouncedBall (g : Game) : Ball :=
  if g.paddleHit then { g.movedBall with velX := -g.movedBall.velX } else g.movedBall

/-- The right paddle after the computer-control block of `update`. -/
def computerPaddle (g : Game) : Paddle :=
  if g.gameMode = 2 then
    if g.bouncedBall.rect.y + Int.tdiv Ball.SIZE 2 < g.rightPaddle.rect.y + Int.tdiv Paddle.HEIGHT 2
        ∧ g.rightPaddle.rect.y > 0 then
      { rect := { g.rightPaddle.rect with y := g.rightPaddle.rect.y - Paddle.SPEED } }
    else if g.bouncedBall.rect.y + Int.tdiv Ball.SIZE 2 >
        g.rightPaddle.rect.y + Int.tdiv Paddle.HEIGHT 2
        ∧ g.rightPaddle.rect.y + Paddle.HEIGHT < WINDOW_HEIGHT then
      { rect := { g.rightPaddle.rect with y := g.rightPaddle.rect.y + Paddle.SPEED } }
    else g.rightPaddle
  else g.rightPaddle

/-- Whether the wall check of `update` reverses the vertical velocity. -/
def wallFlips (g : Game) : Bool :=
  decide (g.ball.rect.y + g.ball.velY ≤ 0 ∨ g.ball.rect.y + g.ball.velY + Ball.SIZE ≥ WINDOW_HEIGHT)

end Game


/-! ## Predicates used in the statements -/

/-- The paddle rectangle lies within a playfield of the given size. -/
def Paddle.inPlayfield (p : Paddle) (windowWidth windowHeight : Int) : Prop :=
  0 ≤ p.rect.x ∧ p.rect.x ≤ windowWidth - 20 ∧ 0 ≤ p.rect.y ∧ p.rect.y ≤ windowHeight - 100

instance (p : Paddle) (windowWidth windowHeight : Int) :
    Decidable (p.inPlayfield windowWidth windowHeight) := by
  unfold Paddle.inPlayfield; infer_instance

/-- Both coordinates of the paddle are multiples of the step of 10 px. -/
def Paddle.aligned (p : Paddle) : Prop := p.rect.x % 10 = 0 ∧ p.rect.y % 10 = 0

instance (p : Paddle) : Decidable p.aligned := by
  unfold Paddle.aligned; infer_instance

/-- The event is a key-press of P, on which `pauseMenu` resumes. -/
def SDL_Event.isResume (e : SDL_Event) : Prop := e.type = SDL_KEYDOWN ∧ e.sym = SDLK_p

instance (e : SDL_Event) : Decidable e.isResume := by
  unfold SDL_Event.isResume; infer_instance

/-- The event makes `pauseMenu` leave through `exit(0)`: a window close or a
key-press of Q. -/
def SDL_Event.isQuit (e : SDL_Event) : Prop :=
  e.type = SDL_QUIT ∨ (e.type = SDL_KEYDOWN ∧ e.sym = SDLK_q)

instance (e : SDL_Event) : Decidable e.isQuit := by
  unfold SDL_Event.isQuit; infer_instance

/-- A poll result that leaves the pause menu waiting: an empty queue, or an
event that neither resumes nor quits. -/
def keepsPaused : Option SDL_Event → Prop
  | none => True
  | some e => ¬ e.isResume ∧ ¬ e.isQuit

instance : DecidablePred keepsPaused := fun p =>
  match p with
  | none => isTrue trivial
  | some e => inferInstanceAs (Decidable (¬ e.isResume ∧ ¬ e.isQuit))

/-- A poll result that delivers an event other than a quit. -/
def deliversNoQuit : Option SDL_Event → Prop
  | none => False
  | some e => ¬ e.isQuit

instance : DecidablePred deliversNoQuit := fun p =>
  match p with
  | none => isFalse not_false
  | some e => inferInstanceAs (Decidable (¬ e.isQuit))

/-- The key-press event of P. -/
def keyP : SDL_Event := { type := SDL_KEYDOWN, sym := SDLK_p }

/-- The moves `handleInput` applies to the left paddle for a key state. -/
def Keys.moveLeftPaddle (k : Keys) (p : Paddle) : Paddle :=
  let p := if k.W then p.moveUp else p
  let p := if k.S then p.moveDown WINDOW_HEIGHT else p
  let p := if k.A then p.moveLeft else p
  if k.D then p.moveRight WINDOW_WIDTH else p

/-- The moves `handleInput` applies to the right paddle for a key state in
mode 1. -/
def Keys.moveRightPaddle (k : Keys) (p : Paddle) : Paddle :=
  let p := if k.UP then p.moveUp else p
  let p := if k.DOWN then p.moveDown WINDOW_HEIGHT else p
  let p := if k.LEFT then p.moveLeft else p
  if k.RIGHT then p.moveRight WINDOW_WIDTH else p

/-- The paddle lies within the 800x600 playfield with aligned coordinates. -/
def Paddle.ok (p : Paddle) : Prop := p.inPlayfield 800 600 ∧ p.aligned

instance (p : Paddle) : Decidable p.ok := by
  unfold Paddle.ok; infer_instance

/-- The vertical state of the ball on its lattice: y is 2 modulo 3, between
-1 and 578 when moving down and between 2 and 581 when moving up. -/
def Ball.onTrack (b : Ball) : Prop :=
  b.rect.y % 3 = 2 ∧
  ((b.velY = 3 ∧ -1 ≤ b.rect.y ∧ b.rect.y ≤ 578) ∨ (b.velY = -3 ∧ 2 ≤ b.rect.y ∧ b.rect.y ≤ 581))

/-- The game with the paddles put at the given places. -/
def Game.place (g : Game) (l r : Paddle) : Game := { g with leftPaddle := l, rightPaddle := r }

/-- No call of `update` in the run over the given key states finds a paddle
overlapping the ball. -/
def Game.noPaddleHit (g : Game) : List Keys → Bool
  | [] => true
  | k :: ks => !(g.handleKeys k).paddleHit && Game.noPaddleHit (g.tick k) ks

/-- The states at the end of an iteration of the loop of `run`, started with
the given mode. -/
inductive Reachable (mode : Int) : Game → Prop where
  | start : Reachable mode (Game.start mode)
  | frame (g g' : Game) (running running' : Bool) (polls rest : List (Option SDL_Event))
      (keystates : Keys) :
      Reachable mode g → Game.frame g running polls keystates = .returned g' running' rest →
      Reachable mode g'

/-- The states reached by calls of `Game::update` when the paddles may stand
anywhere before each call. -/
inductive UpdateReachable (mode : Int) : Game → Prop where
  | start : UpdateReachable mode (Game.start mode)
  | update (g : Game) (l r : Paddle) :
      UpdateReachable mode g →
      UpdateReachable mode (g.place l r).update

/-! ## Concrete states and inputs used as examples -/

/-- A state in which the ball is about to leave the window on the left. -/
def leavingLeft : Game :=
  { Game.start 1 with ball := { rect := { x := 1, y := 290, w := 20, h := 20 }, velX := -3, velY := 3 } }

/-- A state in which the ball is about to leave the window on the right. -/
def leavingRight : Game :=
  { Game.start 1 with ball := { rect := { x := 780, y := 290, w := 20, h := 20 }, velX := 3, velY := 3 } }

/-- A ball flush with the bottom edge of a window of height 600. -/
def flushBall : Ball := { rect := { x := 100, y := 580, w := 20, h := 20 }, velX := 3, velY := 3 }

/-- A key state with W, A, UP and RIGHT held. -/
def someKeys : Keys :=
  { W := true, S := false, A := true, D := false,
    UP := true, DOWN := false, LEFT := false, RIGHT := true }

/-- A key state with all four arrow keys held. -/
def arrowKeys : Keys :=
  { W := false, S := false, A := false, D := false,
    UP := true, DOWN := true, LEFT := true, RIGHT := true }

/-- A key state with only the LEFT arrow held. -/
def leftArrow : Keys :=
  { W := false, S := false, A := false, D := false,
    UP := false, DOWN := false, LEFT := true, RIGHT := false }

/-- A mouse-motion event (`SDL_MOUSEMOTION`). -/
def mouseMotion : SDL_Event := { type := 0x400, sym := 0 }

/-- A key-press of A. -/
def keyA : SDL_Event := { type := SDL_KEYDOWN, sym := 97 }

/-- The state in which the ball, at y = 578 and moving down, is about to meet
the bottom wall: 96 calls of `update` from the start in mode 1 with the paddles
parked in the upper corners before each call. -/
def beforeBottom : Game :=
  Nat.iterate (fun g : Game => (g.place (Paddle.new 0 0) (Paddle.new 780 0)).update) 96 (Game.start 1)

/-! ## The stages of `update`, proved -/

theorem checkWallCollision_rect (b : Ball) (h : Int) : (b.checkWallCollision h).rect = b.rect := by
  unfold Ball.checkWallCollision; split <;> rfl

theorem checkWallCollision_velX (b : Ball) (h : Int) : (b.checkWallCollision h).velX = b.velX := by
  unfold Ball.checkWallCollision; split <;> rfl

theorem movedBall_rect (g : Game) :
    g.movedBall.rect = { g.ball.rect with x := g.ball.rect.x + g.ball.velX,
                                          y := g.ball.rect.y + g.ball.velY } := by
  simp [Game.movedBall, checkWallCollision_rect, Ball.update]

theorem movedBall_velX (g : Game) : g.movedBall.velX = g.ball.velX := by
  simp [Game.movedBall, checkWallCollision_velX, Ball.update]

theorem movedBall_velY (g : Game) :
    g.movedBall.velY = if g.wallFlips then -g.ball.velY else g.ball.velY := by
  simp only [Game.movedBall, Ball.checkWallCollision, Ball.update, Game.wallFlips,
    decide_eq_true_eq]
  split <;> rfl

theorem bouncedBall_rect (g : Game) :
    g.bouncedBall.rect = { g.ball.rect with x := g.ball.rect.x + g.ball.velX,
                                            y := g.ball.rect.y + g.ball.velY } := by
  unfold Game.bouncedBall; split <;> simp [movedBall_rect]

theorem bouncedBall_velX (g : Game) :
    g.bouncedBall.velX = if g.paddleHit then -g.ball.velX else g.ball.velX := by
  unfold Game.bouncedBall; split <;> simp_all [movedBall_velX]

theorem bouncedBall_velY (g : Game) :
    g.bouncedBall.velY = if g.wallFlips then -g.ball.velY else g.ball.velY := by
  unfold Game.bouncedBall; split <;> simp [movedBall_velY]

/-- The method `update` written with its stages. -/
theorem update_unfold (g : Game) :
    g.update =
      if (if g.bouncedBall.rect.x + Ball.SIZE > WINDOW_WIDTH then true
          else if g.bouncedBall.rect.x < 0 then true else false) = true then
        { leftPaddle := g.leftPaddle
          rightPaddle := g.computerPaddle
          ball := g.bouncedBall.reset WINDOW_WIDTH WINDOW_HEIGHT (decide (g.bouncedBall.rect.x < 0))
          scoreboard := g.scoreboard.updateScores
            (if g.bouncedBall.rect.x + Ball.SIZE > WINDOW_WIDTH then g.leftScore + 1 else g.leftScore)
            (if g.bouncedBall.rect.x < 0 then g.rightScore + 1 else g.rightScore)
          leftScore :=
            if g.bouncedBall.rect.x + Ball.SIZE > WINDOW_WIDTH then g.leftScore + 1 else g.leftScore
          rightScore := if g.bouncedBall.rect.x < 0 then g.rightScore + 1 else g.rightScore
          gameMode := g.gameMode }
      else
        { leftPaddle := g.leftPaddle
          rightPaddle := g.computerPaddle
          ball := g.bouncedBall
          scoreboard := g.scoreboard
          leftScore :=
            if g.bouncedBall.rect.x + Ball.SIZE > WINDOW_WIDTH then g.leftScore + 1 else g.leftScore
          rightScore := if g.bouncedBall.rect.x < 0 then g.rightScore + 1 else g.rightScore
          gameMode := g.gameMode } := rfl

/-- A call of `update` that finds the advanced ball left of the window. -/
theorem update_of_offLeft (g : Game) (h : g.ball.rect.x + g.ball.velX < 0) :
    g.update =
      { leftPaddle := g.leftPaddle
        rightPaddle := g.computerPaddle
        ball := g.bouncedBall.reset WINDOW_WIDTH WINDOW_HEIGHT true
        scoreboard := { leftScore := g.leftScore, rightScore := g.rightScore + 1 }
        leftScore := g.leftScore
        rightScore := g.rightScore + 1
        gameMode := g.gameMode } := by
  have h2 : ¬ (g.ball.rect.x + g.ball.velX + 20 > 800) := by omega
  rw [update_unfold]
  simp [bouncedBall_rect, h, h2, Scoreboard.updateScores]

/-- A call of `update` that finds the advanced ball right of the window. -/
theorem update_of_offRight (g : Game) (h : g.ball.rect.x + g.ball.velX + 20 > 800) :
    g.update =
      { leftPaddle := g.leftPaddle
        rightPaddle := g.computerPaddle
        ball := g.bouncedBall.reset WINDOW_WIDTH WINDOW_HEIGHT false
        scoreboard := { leftScore := g.leftScore + 1, rightScore := g.rightScore }
        leftScore := g.leftScore + 1
        rightScore := g.rightScore
        gameMode := g.gameMode } := by
  have h2 : ¬ (g.ball.rect.x + g.ball.velX < 0) := by omega
  rw [update_unfold]
  simp [bouncedBall_rect, h, h2, Scoreboard.updateScores]

/-- A call of `update` that finds the advanced ball inside the window. -/
theorem update_of_inside (g : Game) (h1 : ¬ g.ball.rect.x + g.ball.velX < 0)
    (h2 : ¬ g.ball.rect.x + g.ball.velX + 20 > 800) :
    g.update =
      { leftPaddle := g.leftPaddle
        rightPaddle := g.computerPaddle
        ball := g.bouncedBall
        scoreboard := g.scoreboard
        leftScore := g.leftScore
        rightScore := g.rightScore
        gameMode := g.gameMode } := by
  rw [update_unfold]
  simp [bouncedBall_rect, h1, h2]

/-! ## C1 and C4: scoring and the direction of the reset -/

theorem reset_values (b : Ball) (goRight : Bool) :
    (b.reset WINDOW_WIDTH WINDOW_HEIGHT goRight).rect.x = 390 ∧
    (b.reset WINDOW_WIDTH WINDOW_HEIGHT goRight).rect.y = 290 ∧
    (b.reset WINDOW_WIDTH WINDOW_HEIGHT goRight).velX = (if goRight then 3 else -3) ∧
    (b.reset WINDOW_WIDTH WINDOW_HEIGHT goRight).velY = 3 := by
  refine ⟨rfl, rfl, ?_, rfl⟩
  cases goRight <;> rfl

/-- C1: one call of `Game::update` judges the score on the advanced ball
position `x + velX`: left of the window the right score grows by one, the left
score stays, and the ball is reset to (390, 290) with velocity (3, 3); right of
the window the left score grows by one, the right score stays, and the ball is
reset to (390, 290) with velocity (-3, 3); otherwise both scores stay.  No call
changes both scores and no score decreases. -/
theorem update_scoring (g : Game) :
    (g.ball.rect.x + g.ball.velX < 0 →
        g.update.rightScore = g.rightScore + 1 ∧ g.update.leftScore = g.leftScore ∧
        g.update.ball.rect.x = 390 ∧ g.update.ball.rect.y = 290 ∧
        g.update.ball.velX = 3 ∧ g.update.ball.velY = 3) ∧
    (g.ball.rect.x + g.ball.velX + 20 > 800 →
        g.update.leftScore = g.leftScore + 1 ∧ g.update.rightScore = g.rightScore ∧
        g.update.ball.rect.x = 390 ∧ g.update.ball.rect.y = 290 ∧
        g.update.ball.velX = -3 ∧ g.update.ball.velY = 3) ∧
    (¬ g.ball.rect.x + g.ball.velX < 0 → ¬ g.ball.rect.x + g.ball.velX + 20 > 800 →
        g.update.leftScore = g.leftScore ∧ g.update.rightScore = g.rightScore) ∧
    ¬ (g.update.leftScore ≠ g.leftScore ∧ g.update.rightScore ≠ g.rightScore) ∧
    g.leftScore ≤ g.update.leftScore ∧ g.rightScore ≤ g.update.rightScore := by
  have hL : g.ball.rect.x + g.ball.velX < 0 →
      g.update.rightScore = g.rightScore + 1 ∧ g.update.leftScore = g.leftScore ∧
      g.update.ball.rect.x = 390 ∧ g.update.ball.rect.y = 290 ∧
      g.update.ball.velX = 3 ∧ g.update.ball.velY = 3 := by
    intro h
    rw [update_of_offLeft g h]
    exact ⟨rfl, rfl, rfl, rfl, rfl, rfl⟩
  have hR : g.ball.rect.x + g.ball.velX + 20 > 800 →
      g.update.leftScore = g.leftScore + 1 ∧ g.update.rightScore = g.rightScore ∧
      g.update.ball.rect.x = 390 ∧ g.update.ball.rect.y = 290 ∧
      g.update.ball.velX = -3 ∧ g.update.ball.velY = 3 := by
    intro h
    rw [update_of_offRight g h]
    exact ⟨rfl, rfl, rfl, rfl, rfl, rfl⟩
  have hN : ¬ g.ball.rect.x + g.ball.velX < 0 → ¬ g.ball.rect.x + g.ball.velX + 20 > 800 →
      g.update.leftScore = g.leftScore ∧ g.update.rightScore = g.rightScore := by
    intro h1 h2
    rw [update_of_inside g h1 h2]
    exact ⟨rfl, rfl⟩
  refine ⟨hL, hR, hN, ?_, ?_, ?_⟩ <;>
    by_cases h1 : g.ball.rect.x + g.ball.velX < 0 <;>
    by_cases h2 : g.ball.rect.x + g.ball.velX + 20 > 800 <;>
    omega

/-- The scoring rule of C1 at a ball leaving on the right: 0-0 becomes 1-0 and
the ball restarts at (390, 290) with velocity (-3, 3). -/
theorem update_scoring_witness :
    leavingRight.update.leftScore = 1 ∧ leavingRight.update.rightScore = 0 ∧
    leavingRight.update.ball.rect.x = 390 ∧ leavingRight.update.ball.rect.y = 290 ∧
    leavingRight.update.ball.velX = -3 ∧ leavingRight.update.ball.velY = 3 :=
  (update_scoring leavingRight).2.1 (by decide)

/-- C4, as the code has it: on a call of `update` that scores, the ball is
reset with its horizontal velocity pointing away from the side that conceded:
past the left edge the new velocity is +3, past the right edge it is -3. -/
theorem reset_direction (g : Game) :
    (g.ball.rect.x + g.ball.velX < 0 →
        g.update.rightScore = g.rightScore + 1 ∧ g.update.ball.velX = 3) ∧
    (g.ball.rect.x + g.ball.velX + 20 > 800 →
        g.update.leftScore = g.leftScore + 1 ∧ g.update.ball.velX = -3) := by
  constructor
  · intro h
    rw [update_of_offLeft g h]
    exact ⟨rfl, rfl⟩
  · intro h
    rw [update_of_offRight g h]
    exact ⟨rfl, rfl⟩

/-- The reset direction of C4 at a ball leaving on the left. -/
theorem reset_direction_witness :
    leavingLeft.update.rightScore = 1 ∧ leavingLeft.update.ball.velX = 3 :=
  (reset_direction leavingLeft).1 (by decide)

/-- C4 fails as stated: the ball passes the left edge (the left player
concedes, the right score goes from 0 to 1) and the reset velocity is +3,
not -3. -/
theorem reset_direction_counterexample :
    leavingLeft.ball.rect.x + leavingLeft.ball.velX < 0 ∧
    leavingLeft.update.rightScore = leavingLeft.rightScore + 1 ∧
    leavingLeft.update.leftScore = leavingLeft.leftScore ∧
    leavingLeft.update.ball.velX = 3 ∧
    ¬ leavingLeft.update.ball.velX = -3 := by
  decide

/-! ## C9: the wall check -/

/-- C9: `checkWallCollision h` negates the vertical velocity exactly when
`y ≤ 0` or `y + 20 ≥ h` and leaves it alone otherwise; it never changes the
rectangle (position and size) or the horizontal velocity.  On a ball that
meets the boundary condition the condition still holds after the call, so every
further call flips again: an even number of calls returns the ball itself
(two calls in particular), an odd number the ball with negated vertical
velocity. -/
theorem checkWallCollision_spec (b : Ball) (h : Int) :
    ((b.rect.y ≤ 0 ∨ b.rect.y + 20 ≥ h) → (b.checkWallCollision h).velY = -b.velY) ∧
    (¬ (b.rect.y ≤ 0 ∨ b.rect.y + 20 ≥ h) → (b.checkWallCollision h).velY = b.velY) ∧
    (b.checkWallCollision h).rect = b.rect ∧
    (b.checkWallCollision h).velX = b.velX ∧
    ((b.rect.y ≤ 0 ∨ b.rect.y + 20 ≥ h) →
      ((b.checkWallCollision h).rect.y ≤ 0 ∨ (b.checkWallCollision h).rect.y + 20 ≥ h) ∧
      (b.checkWallCollision h).checkWallCollision h = b ∧
      ∀ n : Nat, (fun c : Ball => c.checkWallCollision h)^[n] b =
        if n % 2 = 0 then b else { b with velY := -b.velY }) := by
  have flip : (b.rect.y ≤ 0 ∨ b.rect.y + 20 ≥ h) →
      b.checkWallCollision h = { b with velY := -b.velY } := by
    intro hc
    simp only [Ball.checkWallCollision, Ball.SIZE, if_pos hc]
  have flip' : (b.rect.y ≤ 0 ∨ b.rect.y + 20 ≥ h) →
      ({ b with velY := -b.velY } : Ball).checkWallCollision h = b := by
    intro hc
    simp only [Ball.checkWallCollision, Ball.SIZE, if_pos hc, neg_neg]
  refine ⟨?_, ?_, checkWallCollision_rect b h, checkWallCollision_velX b h, ?_⟩
  · intro hc
    rw [flip hc]
  · intro hc
    simp only [Ball.checkWallCollision, Ball.SIZE, if_neg hc]
  · intro hc
    refine ⟨?_, ?_, ?_⟩
    · rw [checkWallCollision_rect]; exact hc
    · rw [flip hc, flip' hc]
    · intro n
      induction n with
      | zero => simp
      | succ k ih =>
        rw [Function.iterate_succ_apply', ih]
        by_cases hk : k % 2 = 0
        · have hk' : ¬ (k + 1) % 2 = 0 := by omega
          rw [if_pos hk, if_neg hk', flip hc]
        · have hk' : (k + 1) % 2 = 0 := by omega
          rw [if_neg hk, if_pos hk', flip' hc]

/-- The wall check of C9 at a ball flush with the bottom edge: the velocity
flips, and a second call restores the ball. -/
theorem checkWallCollision_spec_witness :
    (flushBall.checkWallCollision 600).velY = -3 ∧
    (flushBall.checkWallCollision 600).checkWallCollision 600 = flushBall :=
  ⟨(checkWallCollision_spec flushBall 600).1 (by decide),
   ((checkWallCollision_spec flushBall 600).2.2.2.2 (by decide)).2.1⟩

/-! ## C7: the paddle moves -/

/-- C7 fails as stated: a paddle at (50, 5) lies within the 800x600 playfield,
and `moveUp` puts it at y = -5, outside. -/
theorem paddle_move_counterexample :
    (Paddle.new 50 5).inPlayfield 800 600 ∧
    (Paddle.new 50 5).moveUp.rect.y = -5 ∧
    ¬ (Paddle.new 50 5).moveUp.inPlayfield 800 600 := by
  decide

/-- C7, as the code has it: when the coordinates of a paddle within the
playfield are multiples of the step of 10 px, and so are `windowWidth - 20`
and `windowHeight - 100`, each of the four moves yields a paddle that is again
within the playfield and aligned, having changed one coordinate only, by 0 or
by exactly 10, and kept the size. -/
theorem paddle_move_clamped (p : Paddle) (windowWidth windowHeight : Int)
    (hin : p.inPlayfield windowWidth windowHeight) (hal : p.aligned)
    (hW : (windowWidth - 20) % 10 = 0) (hH : (windowHeight - 100) % 10 = 0) :
    (p.moveUp.inPlayfield windowWidth windowHeight ∧ p.moveUp.aligned ∧
      p.moveUp.rect.x = p.rect.x ∧ p.moveUp.rect.w = p.rect.w ∧ p.moveUp.rect.h = p.rect.h ∧
      (p.moveUp.rect.y = p.rect.y ∨ p.moveUp.rect.y = p.rect.y - 10)) ∧
    ((p.moveDown windowHeight).inPlayfield windowWidth windowHeight ∧
      (p.moveDown windowHeight).aligned ∧
      (p.moveDown windowHeight).rect.x = p.rect.x ∧ (p.moveDown windowHeight).rect.w = p.rect.w ∧
      (p.moveDown windowHeight).rect.h = p.rect.h ∧
      ((p.moveDown windowHeight).rect.y = p.rect.y ∨
        (p.moveDown windowHeight).rect.y = p.rect.y + 10)) ∧
    (p.moveLeft.inPlayfield windowWidth windowHeight ∧ p.moveLeft.aligned ∧
      p.moveLeft.rect.y = p.rect.y ∧ p.moveLeft.rect.w = p.rect.w ∧ p.moveLeft.rect.h = p.rect.h ∧
      (p.moveLeft.rect.x = p.rect.x ∨ p.moveLeft.rect.x = p.rect.x - 10)) ∧
    ((p.moveRight windowWidth).inPlayfield windowWidth windowHeight ∧
      (p.moveRight windowWidth).aligned ∧
      (p.moveRight windowWidth).rect.y = p.rect.y ∧ (p.moveRight windowWidth).rect.w = p.rect.w ∧
      (p.moveRight windowWidth).rect.h = p.rect.h ∧
      ((p.moveRight windowWidth).rect.x = p.rect.x ∨
        (p.moveRight windowWidth).rect.x = p.rect.x + 10)) := by
  unfold Paddle.inPlayfield Paddle.aligned at *
  refine ⟨?_, ?_, ?_, ?_⟩
  · simp only [Paddle.moveUp, Paddle.SPEED, Paddle.HEIGHT, Paddle.WIDTH]
    split <;> simp <;> omega
  · simp only [Paddle.moveDown, Paddle.SPEED, Paddle.HEIGHT, Paddle.WIDTH]
    split <;> simp <;> omega
  · simp only [Paddle.moveLeft, Paddle.SPEED, Paddle.HEIGHT, Paddle.WIDTH]
    split <;> simp <;> omega
  · simp only [Paddle.moveRight, Paddle.SPEED, Paddle.HEIGHT, Paddle.WIDTH]
    split <;> simp <;> omega

/-- The clamped moves of C7 at the initial left paddle (50, 250) in the
800x600 window. -/
theorem paddle_move_clamped_witness :
    (Paddle.new 50 250).moveUp.inPlayfield 800 600 ∧
    ((Paddle.new 50 250).moveDown 600).inPlayfield 800 600 ∧
    (Paddle.new 50 250).moveLeft.inPlayfield 800 600 ∧
    ((Paddle.new 50 250).moveRight 800).inPlayfield 800 600 :=
  have h := paddle_move_clamped (Paddle.new 50 250) 800 600 (by decide) (by decide)
    (by decide) (by decide)
  ⟨h.1.1, h.2.1.1, h.2.2.1.1, h.2.2.2.1⟩

/-! ## The input half of an iteration -/

theorem handleKeys_eq (g : Game) (k : Keys) :
    g.handleKeys k =
      { g with
        leftPaddle := k.moveLeftPaddle g.leftPaddle
        rightPaddle := if g.gameMode = 1 then k.moveRightPaddle g.rightPaddle else g.rightPaddle } := by
  rfl

theorem pauseLoop_game (g : Game) (polls : List (Option SDL_Event)) :
    ∀ (p : Bool),
      (∀ g' rest, Game.pauseLoop g p polls = .resumed g' rest →
        g' = g ∧ rest.length ≤ polls.length) ∧
      (∀ g', Game.pauseLoop g p polls = .paused g' → g' = g) := by
  induction polls with
  | nil =>
    intro p
    cases p
    · simp only [Game.pauseLoop]
      refine ⟨fun g' rest h => ?_, fun g' h => ?_⟩
      · cases h; simp
      · cases h
    · simp only [Game.pauseLoop]
      refine ⟨fun g' rest h => ?_, fun g' h => ?_⟩
      · cases h
      · cases h; rfl
  | cons q tl ih =>
    intro p
    have step : ∀ b : Bool,
        (∀ g' rest, Game.pauseLoop g b tl = .resumed g' rest →
          g' = g ∧ rest.length ≤ (q :: tl).length) ∧
        (∀ g', Game.pauseLoop g b tl = .paused g' → g' = g) := by
      intro b
      refine ⟨fun g' rest h => ?_, (ih b).2⟩
      have := (ih b).1 g' rest h
      exact ⟨this.1, by simp; omega⟩
    cases q with
    | none =>
      cases p
      · simp only [Game.pauseLoop]
        refine ⟨fun g' rest h => ?_, fun g' h => ?_⟩
        · simp at h
          simp [h.1, h.2]
        · simp at h
      · simp only [Game.pauseLoop, if_true]
        exact step true
    | some e =>
      simp only [Game.pauseLoop]
      split
      · exact ⟨fun g' rest h => (by cases h), fun g' h => (by cases h)⟩
      · split
        · split
          · exact step false
          · split
            · exact ⟨fun g' rest h => (by cases h), fun g' h => (by cases h)⟩
            · exact step p
        · exact step p

theorem pollEvents_game (n : Nat) :
    ∀ (polls : List (Option SDL_Event)), polls.length ≤ n →
      ∀ (g : Game) (running : Bool),
        (∀ g' running' rest, Game.pollEvents g running polls = .returned g' running' rest → g' = g) ∧
        (∀ g', Game.pollEvents g running polls = .paused g' → g' = g) := by
  have base : ∀ (g : Game) (running : Bool) (rest0 : List (Option SDL_Event)),
      (∀ g' running' rest, Game.Outcome.returned g running rest0 = .returned g' running' rest →
        g' = g) ∧
      (∀ g', Game.Outcome.returned g running rest0 = .paused g' → g' = g) := by
    intro g running rest0
    refine ⟨fun g' running' rest h => ?_, fun g' h => ?_⟩
    · cases h; rfl
    · cases h
  induction n with
  | zero =>
    intro polls hl g running
    have : polls = [] := List.length_eq_zero.mp (by omega)
    subst this
    rw [Game.pollEvents]
    exact base g running []
  | succ k ih =>
    intro polls hl g running
    cases polls with
    | nil =>
      rw [Game.pollEvents]
      exact base g running []
    | cons q tl =>
      cases q with
      | none =>
        rw [Game.pollEvents]
        exact base g running tl
      | some e =>
        have htl : tl.length ≤ k := by simpa using hl
        rw [Game.pollEvents]
        split
        · split
          · rename_i g1 rest1 hp
            have h1 := ((pauseLoop_game g tl true).1 g1 rest1 hp)
            have := ih rest1 (by omega) g1 (if e.type = SDL_QUIT then false else running)
            rw [h1.1] at this
            rw [h1.1]
            exact this
          · exact ⟨fun g' running' rest h => (by cases h), fun g' h => (by cases h)⟩
          · rename_i g1 hp
            have h1 := ((pauseLoop_game g tl true).2 g1 hp)
            refine ⟨fun g' running' rest h => (by cases h), fun g' h => ?_⟩
            cases h
            exact h1
        · exact ih tl htl g _

/-- An iteration of the loop of `run` that returns leaves the game in the
state `tick` computes from the sampled key state. -/
theorem frame_returned (g g' : Game) (running running' : Bool)
    (polls rest : List (Option SDL_Event)) (k : Keys)
    (h : Game.frame g running polls k = .returned g' running' rest) : g' = g.tick k := by
  unfold Game.frame Game.handleInput at h
  cases hp : Game.pollEvents g running polls with
  | returned g1 r1 rest1 =>
    have := (pollEvents_game polls.length polls le_rfl g running).1 g1 r1 rest1 hp
    subst this
    rw [hp] at h
    simp only [Game.Outcome.returned.injEq] at h
    exact h.1.symm
  | exited => rw [hp] at h; cases h
  | paused g1 => rw [hp] at h; cases h

/-- With an empty event queue an iteration of the loop of `run` returns. -/
theorem frame_nil (g : Game) (running : Bool) (k : Keys) :
    Game.frame g running [] k = .returned (g.tick k) running [] := by
  unfold Game.frame Game.handleInput
  rw [Game.pollEvents]
  rfl

/-! ## C2: the paddles stay in the playfield -/

theorem update_leftPaddle (g : Game) : g.update.leftPaddle = g.leftPaddle := by
  by_cases h1 : g.ball.rect.x + g.ball.velX < 0
  · rw [update_of_offLeft g h1]
  · by_cases h2 : g.ball.rect.x + g.ball.velX + 20 > 800
    · rw [update_of_offRight g h2]
    · rw [update_of_inside g h1 h2]

theorem update_rightPaddle (g : Game) : g.update.rightPaddle = g.computerPaddle := by
  by_cases h1 : g.ball.rect.x + g.ball.velX < 0
  · rw [update_of_offLeft g h1]
  · by_cases h2 : g.ball.rect.x + g.ball.velX + 20 > 800
    · rw [update_of_offRight g h2]
    · rw [update_of_inside g h1 h2]

theorem update_gameMode (g : Game) : g.update.gameMode = g.gameMode := by
  by_cases h1 : g.ball.rect.x + g.ball.velX < 0
  · rw [update_of_offLeft g h1]
  · by_cases h2 : g.ball.rect.x + g.ball.velX + 20 > 800
    · rw [update_of_offRight g h2]
    · rw [update_of_inside g h1 h2]

theorem tick_gameMode (g : Game) (k : Keys) : (g.tick k).gameMode = g.gameMode := by
  unfold Game.tick; rw [update_gameMode, handleKeys_eq]

theorem moveUp_ok (p : Paddle) (h : p.ok) : p.moveUp.ok := by
  unfold Paddle.ok Paddle.inPlayfield Paddle.aligned at *
  simp only [Paddle.moveUp, Paddle.SPEED]
  split <;> simp <;> omega

theorem moveDown_ok (p : Paddle) (h : p.ok) : (p.moveDown WINDOW_HEIGHT).ok := by
  unfold Paddle.ok Paddle.inPlayfield Paddle.aligned at *
  simp only [Paddle.moveDown, Paddle.SPEED, Paddle.HEIGHT, WINDOW_HEIGHT]
  split <;> simp <;> omega

theorem moveLeft_ok (p : Paddle) (h : p.ok) : p.moveLeft.ok := by
  unfold Paddle.ok Paddle.inPlayfield Paddle.aligned at *
  simp only [Paddle.moveLeft, Paddle.SPEED]
  split <;> simp <;> omega

theorem moveRight_ok (p : Paddle) (h : p.ok) : (p.moveRight WINDOW_WIDTH).ok := by
  unfold Paddle.ok Paddle.inPlayfield Paddle.aligned at *
  simp only [Paddle.moveRight, Paddle.SPEED, Paddle.WIDTH, WINDOW_WIDTH]
  split <;> simp <;> omega

theorem moveLeftPaddle_ok (k : Keys) (p : Paddle) (h : p.ok) : (k.moveLeftPaddle p).ok := by
  unfold Keys.moveLeftPaddle
  have h1 : (if k.W then p.moveUp else p).ok := by
    split
    · exact moveUp_ok p h
    · exact h
  have h2 : (if k.S then (if k.W then p.moveUp else p).moveDown WINDOW_HEIGHT
      else (if k.W then p.moveUp else p)).ok := by
    split
    · exact moveDown_ok _ h1
    · exact h1
  have h3 := moveLeft_ok _ h2
  have h4 := moveRight_ok _ h2
  have h5 := moveRight_ok _ h3
  simp only
  split <;> split <;> assumption

theorem moveRightPaddle_ok (k : Keys) (p : Paddle) (h : p.ok) : (k.moveRightPaddle p).ok := by
  unfold Keys.moveRightPaddle
  have h1 : (if k.UP then p.moveUp else p).ok := by
    split
    · exact moveUp_ok p h
    · exact h
  have h2 : (if k.DOWN then (if k.UP then p.moveUp else p).moveDown WINDOW_HEIGHT
      else (if k.UP then p.moveUp else p)).ok := by
    split
    · exact moveDown_ok _ h1
    · exact h1
  have h3 := moveLeft_ok _ h2
  have h4 := moveRight_ok _ h2
  have h5 := moveRight_ok _ h3
  simp only
  split <;> split <;> assumption

theorem computerPaddle_ok (g : Game) (h : g.rightPaddle.ok) : g.computerPaddle.ok := by
  unfold Paddle.ok Paddle.inPlayfield Paddle.aligned at *
  simp only [Game.computerPaddle, Paddle.SPEED, Paddle.HEIGHT, WINDOW_HEIGHT]
  split
  · split
    · simp; omega
    · split
      · simp; omega
      · exact h
  · exact h

theorem tick_ok (g : Game) (k : Keys) (hl : g.leftPaddle.ok) (hr : g.rightPaddle.ok) :
    (g.tick k).leftPaddle.ok ∧ (g.tick k).rightPaddle.ok := by
  unfold Game.tick
  rw [update_leftPaddle, update_rightPaddle]
  refine ⟨?_, computerPaddle_ok _ ?_⟩
  · rw [handleKeys_eq]
    exact moveLeftPaddle_ok k _ hl
  · rw [handleKeys_eq]
    simp only
    split
    · exact moveRightPaddle_ok k _ hr
    · exact hr

theorem reachable_ok (mode : Int) (g : Game) (h : Reachable mode g) :
    g.leftPaddle.ok ∧ g.rightPaddle.ok := by
  induction h with
  | start =>
    show (Paddle.new 50 250).ok ∧ (Paddle.new 730 250).ok
    exact ⟨by decide, by decide⟩
  | frame g g' running running' polls rest k _ hf ih =>
    rw [frame_returned g g' running running' polls rest k hf]
    exact tick_ok g k ih.1 ih.2

/-- C2: in every state reached from the initial state by iterations of the
loop of `run` (`handleInput` with any events and key state, then `update`), in
any game mode, both paddles satisfy `0 ≤ y ≤ 600 - 100` and `0 ≤ x ≤ 800 - 20`. -/
theorem paddles_within_playfield (mode : Int) (g : Game) (h : Reachable mode g) :
    (0 ≤ g.leftPaddle.rect.y ∧ g.leftPaddle.rect.y ≤ 600 - 100 ∧
      0 ≤ g.leftPaddle.rect.x ∧ g.leftPaddle.rect.x ≤ 800 - 20) ∧
    (0 ≤ g.rightPaddle.rect.y ∧ g.rightPaddle.rect.y ≤ 600 - 100 ∧
      0 ≤ g.rightPaddle.rect.x ∧ g.rightPaddle.rect.x ≤ 800 - 20) := by
  have := reachable_ok mode g h
  unfold Paddle.ok Paddle.inPlayfield at this
  omega

/-- The bounds of C2 in the state after one iteration in mode 1 with W, A, UP
and RIGHT held: the paddles stand at (40, 240) and (740, 240). -/
theorem paddles_within_playfield_witness :
    ((Game.start 1).tick someKeys).leftPaddle.rect = { x := 40, y := 240, w := 20, h := 100 } ∧
    ((Game.start 1).tick someKeys).rightPaddle.rect = { x := 740, y := 240, w := 20, h := 100 } ∧
    (0 ≤ ((Game.start 1).tick someKeys).leftPaddle.rect.y ∧
      ((Game.start 1).tick someKeys).leftPaddle.rect.y ≤ 600 - 100 ∧
      0 ≤ ((Game.start 1).tick someKeys).leftPaddle.rect.x ∧
      ((Game.start 1).tick someKeys).leftPaddle.rect.x ≤ 800 - 20) ∧
    (0 ≤ ((Game.start 1).tick someKeys).rightPaddle.rect.y ∧
      ((Game.start 1).tick someKeys).rightPaddle.rect.y ≤ 600 - 100 ∧
      0 ≤ ((Game.start 1).tick someKeys).rightPaddle.rect.x ∧
      ((Game.start 1).tick someKeys).rightPaddle.rect.x ≤ 800 - 20) :=
  ⟨by decide, by decide,
    paddles_within_playfield 1 _
      (Reachable.frame (Game.start 1) _ true true [] [] someKeys Reachable.start
        (frame_nil (Game.start 1) true someKeys))⟩

/-! ## C5 and C8: the right paddle -/

theorem computerPaddle_rect (g : Game) :
    g.computerPaddle.rect =
      { g.rightPaddle.rect with
        y := if g.gameMode = 2 then
               if g.ball.rect.y + g.ball.velY + 10 < g.rightPaddle.rect.y + 50
                   ∧ g.rightPaddle.rect.y > 0 then g.rightPaddle.rect.y - 10
               else if g.ball.rect.y + g.ball.velY + 10 > g.rightPaddle.rect.y + 50
                   ∧ g.rightPaddle.rect.y + 100 < 600 then g.rightPaddle.rect.y + 10
               else g.rightPaddle.rect.y
             else g.rightPaddle.rect.y } := by
  have e1 : Int.tdiv 20 2 = 10 := rfl
  have e2 : Int.tdiv 100 2 = 50 := rfl
  simp only [Game.computerPaddle, bouncedBall_rect, Ball.SIZE, Paddle.SPEED, Paddle.HEIGHT,
    WINDOW_HEIGHT, e1, e2]
  split_ifs <;> rfl

theorem tick_rightPaddle_of_ne (g : Game) (k : Keys) (hm : g.gameMode ≠ 1) :
    (g.tick k).rightPaddle.rect =
      { g.rightPaddle.rect with
        y := if g.gameMode = 2 then
               if g.ball.rect.y + g.ball.velY + 10 < g.rightPaddle.rect.y + 50
                   ∧ g.rightPaddle.rect.y > 0 then g.rightPaddle.rect.y - 10
               else if g.ball.rect.y + g.ball.velY + 10 > g.rightPaddle.rect.y + 50
                   ∧ g.rightPaddle.rect.y + 100 < 600 then g.rightPaddle.rect.y + 10
               else g.rightPaddle.rect.y
             else g.rightPaddle.rect.y } := by
  unfold Game.tick
  rw [update_rightPaddle, computerPaddle_rect, handleKeys_eq]
  simp only [if_neg hm]

/-- C5: in mode 2 an iteration of the loop of `run` that returns (whatever
the events and the key state) leaves the right paddle's x and size unchanged
and sets its y by the rule on the advanced ball: with `paddleCenter = y + 50`
and `ballCenter = (ball.y + velY) + 10`, the new y is `y - 10` if
`ballCenter < paddleCenter` and `y > 0`, `y + 10` if `ballCenter > paddleCenter`
and `y + 100 < 600`, and `y` otherwise.  So it moves by at most one step of
10, and another key state gives the same right paddle. -/
theorem computer_paddle_rule (g g' : Game) (running running' : Bool)
    (polls rest : List (Option SDL_Event)) (k : Keys) (hm : g.gameMode = 2)
    (h : Game.frame g running polls k = .returned g' running' rest) :
    g'.rightPaddle.rect.x = g.rightPaddle.rect.x ∧
    g'.rightPaddle.rect.w = g.rightPaddle.rect.w ∧
    g'.rightPaddle.rect.h = g.rightPaddle.rect.h ∧
    (g.ball.rect.y + g.ball.velY + 10 < g.rightPaddle.rect.y + 50 ∧ g.rightPaddle.rect.y > 0 →
      g'.rightPaddle.rect.y = g.rightPaddle.rect.y - 10) ∧
    (g.ball.rect.y + g.ball.velY + 10 > g.rightPaddle.rect.y + 50 ∧
        g.rightPaddle.rect.y + 100 < 600 →
      g'.rightPaddle.rect.y = g.rightPaddle.rect.y + 10) ∧
    (¬ (g.ball.rect.y + g.ball.velY + 10 < g.rightPaddle.rect.y + 50 ∧ g.rightPaddle.rect.y > 0) →
      ¬ (g.ball.rect.y + g.ball.velY + 10 > g.rightPaddle.rect.y + 50 ∧
        g.rightPaddle.rect.y + 100 < 600) →
      g'.rightPaddle.rect.y = g.rightPaddle.rect.y) ∧
    (g'.rightPaddle.rect.y = g.rightPaddle.rect.y - 10 ∨
      g'.rightPaddle.rect.y = g.rightPaddle.rect.y ∨
      g'.rightPaddle.rect.y = g.rightPaddle.rect.y + 10) ∧
    (∀ (k2 : Keys) (g2 : Game) (running2 running2' : Bool)
        (polls2 rest2 : List (Option SDL_Event)),
      Game.frame g running2 polls2 k2 = .returned g2 running2' rest2 →
      g2.rightPaddle = g'.rightPaddle) := by
  have hne : g.gameMode ≠ 1 := by omega
  have hg' := frame_returned g g' running running' polls rest k h
  have hrect := tick_rightPaddle_of_ne g k hne
  rw [← hg'] at hrect
  simp only [if_pos hm] at hrect
  refine ⟨?_, ?_, ?_, ?_, ?_, ?_, ?_, ?_⟩
  · rw [hrect]
  · rw [hrect]
  · rw [hrect]
  · intro hc
    rw [hrect]
    simp only [if_pos hc]
  · intro hc
    have hc' : ¬ (g.ball.rect.y + g.ball.velY + 10 < g.rightPaddle.rect.y + 50
        ∧ g.rightPaddle.rect.y > 0) := by omega
    rw [hrect]
    simp only [if_neg hc', if_pos hc]
  · intro hc1 hc2
    rw [hrect]
    simp only [if_neg hc1, if_neg hc2]
  · rw [hrect]
    simp only
    split
    · left; rfl
    · split
      · right; right; rfl
      · right; left; rfl
  · intro k2 g2 running2 running2' polls2 rest2 h2
    have h2rect := tick_rightPaddle_of_ne g k2 hne
    rw [← frame_returned g g2 running2 running2' polls2 rest2 k2 h2] at h2rect
    simp only [if_pos hm] at h2rect
    show Paddle.mk g2.rightPaddle.rect = Paddle.mk g'.rightPaddle.rect
    rw [h2rect, hrect]

/-- The rule of C5 in the first iteration of a game in mode 2 with all arrow
keys held: the ball centre 303 lies below the paddle centre 300, so the right
paddle goes from (730, 250) to (730, 260). -/
theorem computer_paddle_rule_witness :
    ((Game.start 2).tick arrowKeys).rightPaddle.rect.x = 730 ∧
    ((Game.start 2).tick arrowKeys).rightPaddle.rect.y = 260 :=
  have h := computer_paddle_rule (Game.start 2) ((Game.start 2).tick arrowKeys) true true [] []
    arrowKeys rfl (frame_nil (Game.start 2) true arrowKeys)
  ⟨h.1, h.2.2.2.2.1 (by decide)⟩

/-- C8 fails as stated: in mode 1 with the LEFT arrow held, the first
iteration moves the right paddle from x = 730 to x = 720. -/
theorem right_paddle_x_counterexample :
    (Game.start 1).rightPaddle.rect.x = 730 ∧
    Game.frame (Game.start 1) true [] leftArrow =
      .returned ((Game.start 1).tick leftArrow) true [] ∧
    ((Game.start 1).tick leftArrow).rightPaddle.rect.x = 720 :=
  ⟨by decide, frame_nil (Game.start 1) true leftArrow, by decide⟩

theorem tick_rightPaddle_x (g : Game) (k : Keys)
    (hk : g.gameMode ≠ 1 ∨ (k.LEFT = false ∧ k.RIGHT = false)) :
    (g.tick k).rightPaddle.rect.x = g.rightPaddle.rect.x := by
  unfold Game.tick
  rw [update_rightPaddle, computerPaddle_rect, handleKeys_eq]
  simp only
  split
  · rcases hk with hk | ⟨hl, hr⟩
    · contradiction
    · simp only [Keys.moveRightPaddle, hl, hr, Bool.false_eq_true, if_false, Paddle.moveUp,
        Paddle.moveDown]
      split_ifs <;> rfl
  · rfl

/-- C8, as the code has it: an iteration of the loop of `run` leaves the
right paddle's x unchanged whenever the mode is not 1 or neither the LEFT nor
the RIGHT arrow is held; hence in a session whose mode is not 1 the right
paddle's x is 730 in every reached state. -/
theorem right_paddle_x_fixed :
    (∀ (g g' : Game) (running running' : Bool) (polls rest : List (Option SDL_Event)) (k : Keys),
      (g.gameMode ≠ 1 ∨ (k.LEFT = false ∧ k.RIGHT = false)) →
      Game.frame g running polls k = .returned g' running' rest →
      g'.rightPaddle.rect.x = g.rightPaddle.rect.x) ∧
    (∀ (mode : Int) (g : Game), mode ≠ 1 → Reachable mode g →
      g.rightPaddle.rect.x = 730 ∧ g.gameMode = mode) := by
  have one : ∀ (g g' : Game) (running running' : Bool) (polls rest : List (Option SDL_Event))
      (k : Keys), (g.gameMode ≠ 1 ∨ (k.LEFT = false ∧ k.RIGHT = false)) →
      Game.frame g running polls k = .returned g' running' rest →
      g'.rightPaddle.rect.x = g.rightPaddle.rect.x := by
    intro g g' running running' polls rest k hk h
    rw [frame_returned g g' running running' polls rest k h]
    exact tick_rightPaddle_x g k hk
  refine ⟨one, ?_⟩
  intro mode g hm h
  induction h with
  | start => exact ⟨rfl, rfl⟩
  | frame g g' running running' polls rest k _ hf ih =>
    have hmode : g'.gameMode = mode := by
      rw [frame_returned g g' running running' polls rest k hf, tick_gameMode]
      exact ih.2
    refine ⟨?_, hmode⟩
    rw [one g g' running running' polls rest k (Or.inl (by rw [ih.2]; exact hm)) hf]
    exact ih.1

/-- The amended C8 in the first iteration of a game in mode 2 with all arrow
keys held: the right paddle's x is still 730. -/
theorem right_paddle_x_fixed_witness :
    ((Game.start 2).tick arrowKeys).rightPaddle.rect.x = 730 :=
  (right_paddle_x_fixed.2 2 _ (by decide)
    (Reachable.frame (Game.start 2) _ true true [] [] arrowKeys Reachable.start
      (frame_nil (Game.start 2) true arrowKeys))).1

/-! ## C6: the pause menu -/

theorem pauseLoop_keepsPaused (g : Game) (pre rest : List (Option SDL_Event))
    (hpre : ∀ p ∈ pre, keepsPaused p) :
    Game.pauseLoop g true (pre ++ rest) = Game.pauseLoop g true rest := by
  induction pre with
  | nil => rfl
  | cons q tl ih =>
    have htl := ih (fun p hp => hpre p (List.mem_cons_of_mem q hp))
    have hq := hpre q (List.mem_cons_self q tl)
    cases q with
    | none =>
      simp only [List.cons_append, Game.pauseLoop, if_true]
      exact htl
    | some e =>
      simp only [keepsPaused, SDL_Event.isResume, SDL_Event.isQuit] at hq
      simp only [List.cons_append, Game.pauseLoop]
      have h1 : ¬ e.type = SDL_QUIT := fun h => hq.2 (Or.inl h)
      rw [if_neg h1]
      by_cases h2 : e.type = SDL_KEYDOWN
      · have h3 : ¬ e.sym = SDLK_p := fun h => hq.1 ⟨h2, h⟩
        have h4 : ¬ e.sym = SDLK_q := fun h => hq.2 (Or.inr ⟨h2, h⟩)
        rw [if_pos h2, if_neg h3, if_neg h4]
        exact htl
      · rw [if_neg h2]
        exact htl

theorem pauseLoop_resumed (g : Game) (post tail : List (Option SDL_Event))
    (hpost : ∀ p ∈ post, deliversNoQuit p) :
    Game.pauseLoop g false (post ++ none :: tail) = .resumed g tail := by
  induction post with
  | nil => simp [Game.pauseLoop]
  | cons q tl ih =>
    have htl := ih (fun p hp => hpost p (List.mem_cons_of_mem q hp))
    have hq := hpost q (List.mem_cons_self q tl)
    cases q with
    | none => exact absurd hq (by simp [deliversNoQuit])
    | some e =>
      simp only [deliversNoQuit, SDL_Event.isQuit] at hq
      simp only [List.cons_append, Game.pauseLoop]
      have h1 : ¬ e.type = SDL_QUIT := fun h => hq (Or.inl h)
      rw [if_neg h1]
      by_cases h2 : e.type = SDL_KEYDOWN
      · have h4 : ¬ e.sym = SDLK_q := fun h => hq (Or.inr ⟨h2, h⟩)
        rw [if_pos h2, if_neg h4]
        split <;> exact htl
      · rw [if_neg h2]
        exact htl

theorem pollEvents_cons_none (g : Game) (running : Bool) (rest : List (Option SDL_Event)) :
    Game.pollEvents g running (none :: rest) = .returned g running rest := by
  rw [Game.pollEvents]

theorem pollEvents_cons_some (g : Game) (running : Bool) (e : SDL_Event)
    (rest : List (Option SDL_Event)) :
    Game.pollEvents g running (some e :: rest) =
      if e.type = SDL_KEYDOWN ∧ e.sym = SDLK_p then
        match Game.pauseMenu g rest with
        | .resumed g' rest' =>
          Game.pollEvents g' (if e.type = SDL_QUIT then false else running) rest'
        | .exited => .exited
        | .paused g' => .paused g'
      else Game.pollEvents g (if e.type = SDL_QUIT then false else running) rest := by
  rw [Game.pollEvents]
  split
  · split <;> rename_i hp <;> rw [hp]
  · rfl

/-- C6: let `pre` be polls that contain no resume and no quit.  Then
`pauseMenu` on `pre` is still paused with the game unchanged (ball, paddles,
scores and mode), also when entered from `handleInput` through a key-press of
P.  When a key-press of P follows `pre`, and the events `post` polled after it
up to the next empty queue contain no quit, `pauseMenu` returns with the game
exactly as it was on entry, and `handleInput` then finishes as on a game that
was never paused. -/
theorem pause_freezes (g : Game) (running : Bool) (k : Keys)
    (pre post tail : List (Option SDL_Event))
    (hpre : ∀ p ∈ pre, keepsPaused p) (hpost : ∀ p ∈ post, deliversNoQuit p) :
    Game.pauseMenu g pre = .paused g ∧
    Game.handleInput g running (some keyP :: pre) k = .paused g ∧
    Game.pauseMenu g (pre ++ some keyP :: (post ++ none :: tail)) = .resumed g tail ∧
    Game.handleInput g running (some keyP :: (pre ++ some keyP :: (post ++ none :: none :: tail))) k
      = .returned (g.handleKeys k) running tail := by
  have hP : Game.pauseMenu g pre = .paused g := by
    have := pauseLoop_keepsPaused g pre [] hpre
    rw [List.append_nil] at this
    rw [Game.pauseMenu, this]
    rfl
  have hR : ∀ tl : List (Option SDL_Event),
      Game.pauseMenu g (pre ++ some keyP :: (post ++ none :: tl)) = .resumed g tl := by
    intro tl
    rw [Game.pauseMenu, pauseLoop_keepsPaused g pre _ hpre]
    have : Game.pauseLoop g true (some keyP :: (post ++ none :: tl)) =
        Game.pauseLoop g false (post ++ none :: tl) := by
      simp [Game.pauseLoop, keyP]
    rw [this]
    exact pauseLoop_resumed g post tl hpost
  have hk : keyP.type = SDL_KEYDOWN ∧ keyP.sym = SDLK_p := ⟨rfl, rfl⟩
  have hq : ¬ keyP.type = SDL_QUIT := by decide
  refine ⟨hP, ?_, hR tail, ?_⟩
  · unfold Game.handleInput
    rw [pollEvents_cons_some, if_pos hk, hP]
  · unfold Game.handleInput
    rw [pollEvents_cons_some, if_pos hk, hR (none :: tail), if_neg hq]
    simp only [pollEvents_cons_none]

/-- The pause of C6 on the events mouse motion, empty queue, key-press of A,
empty queue, then a key-press of P followed by a mouse motion: the game stays
paused over the first four polls and resumes unchanged after the P. -/
theorem pause_freezes_witness :
    Game.pauseMenu leavingLeft [some mouseMotion, none, some keyA, none] = .paused leavingLeft ∧
    Game.pauseMenu leavingLeft
      ([some mouseMotion, none, some keyA, none] ++ some keyP :: ([some mouseMotion] ++ none :: []))
      = .resumed leavingLeft [] :=
  have h := pause_freezes leavingLeft true Keys.none [some mouseMotion, none, some keyA, none]
    [some mouseMotion] [] (by decide) (by decide)
  ⟨h.1, h.2.2.1⟩

/-! ## C3: the run of the ball to the right edge -/

theorem handleKeys_ball (g : Game) (k : Keys) : (g.handleKeys k).ball = g.ball := by
  rw [handleKeys_eq]

theorem handleKeys_scores (g : Game) (k : Keys) :
    (g.handleKeys k).leftScore = g.leftScore ∧ (g.handleKeys k).rightScore = g.rightScore := by
  rw [handleKeys_eq]
  exact ⟨rfl, rfl⟩

/-- A tick without paddle contact that keeps the ball inside the window. -/
theorem tick_straight (g : Game) (k : Keys) (hv : g.ball.velX = 3)
    (hhit : (g.handleKeys k).paddleHit = false)
    (h0 : 0 ≤ g.ball.rect.x + 3) (h1 : g.ball.rect.x + 3 ≤ 780) :
    (g.tick k).ball.rect.x = g.ball.rect.x + 3 ∧ (g.tick k).ball.velX = 3 ∧
    (g.tick k).leftScore = g.leftScore ∧ (g.tick k).rightScore = g.rightScore := by
  have hb := handleKeys_ball g k
  have hs := handleKeys_scores g k
  have hx : (g.handleKeys k).ball.rect.x + (g.handleKeys k).ball.velX = g.ball.rect.x + 3 := by
    rw [hb, hv]
  unfold Game.tick
  rw [update_of_inside (g.handleKeys k) (by rw [hx]; omega) (by rw [hx]; omega)]
  refine ⟨?_, ?_, hs.1, hs.2⟩
  · show (g.handleKeys k).bouncedBall.rect.x = _
    rw [bouncedBall_rect, hb, hv]
  · show (g.handleKeys k).bouncedBall.velX = _
    rw [bouncedBall_velX, hhit, hb, hv]
    rfl

theorem runTicks_nil (g : Game) : g.runTicks [] = g := rfl

theorem runTicks_cons (g : Game) (k : Keys) (ks : List Keys) :
    g.runTicks (k :: ks) = (g.tick k).runTicks ks := rfl

theorem runTicks_straight (n : Nat) :
    ∀ (g : Game) (ks : List Keys), n ≤ ks.length → g.noPaddleHit ks = true →
      g.ball.velX = 3 → 0 ≤ g.ball.rect.x → g.ball.rect.x + 3 * n ≤ 780 →
      (g.runTicks (ks.take n)).ball.rect.x = g.ball.rect.x + 3 * n ∧
      (g.runTicks (ks.take n)).ball.velX = 3 ∧
      (g.runTicks (ks.take n)).leftScore = g.leftScore ∧
      (g.runTicks (ks.take n)).rightScore = g.rightScore := by
  induction n with
  | zero =>
    intro g ks _ _ hv _ _
    rw [List.take_zero, runTicks_nil]
    exact ⟨by omega, hv, rfl, rfl⟩
  | succ m ih =>
    intro g ks hlen hhit hv h0 h1
    cases ks with
    | nil => simp at hlen
    | cons k tl =>
      simp only [Game.noPaddleHit, Bool.and_eq_true, Bool.not_eq_true'] at hhit
      have ht := tick_straight g k hv hhit.1 (by omega) (by omega)
      have := ih (g.tick k) tl (by simpa using hlen) hhit.2 ht.2.1 (by omega) (by omega)
      rw [List.take_succ_cons, runTicks_cons]
      rw [this.1, this.2.1, this.2.2.1, this.2.2.2, ht.1, ht.2.2.1, ht.2.2.2]
      refine ⟨by omega, rfl, rfl, rfl⟩

/-- C3 fails as stated: started in mode 1 with no key held, no paddle overlaps
the ball during 130 ticks and the ball then stands at x = 780, yet the score
is still 0-0 and the ball has not been reset (it is at y = 482). -/
theorem scoring_run_counterexample :
    (Game.start 1).ball.rect.x = 390 ∧ (Game.start 1).ball.velX = 3 ∧
    (Game.start 1).leftScore = 0 ∧ (Game.start 1).rightScore = 0 ∧
    (Game.start 1).noPaddleHit (List.replicate 130 Keys.none) = true ∧
    ((Game.start 1).runTicks (List.replicate 130 Keys.none)).ball.rect.x = 780 ∧
    ((Game.start 1).runTicks (List.replicate 130 Keys.none)).leftScore = 0 ∧
    ((Game.start 1).runTicks (List.replicate 130 Keys.none)).ball.rect.y = 482 := by
  decide!

/-- C3, as the code has it: from a state with score 0-0, the ball at x = 390
and `velX = 3` (any y, any vertical velocity), when no paddle overlaps the ball
during the first 130 ticks, the ball stays left of x = 780 for 129 ticks and
stands at x = 780 after exactly 130 ticks with the score still 0-0; the
following tick, the 131st, finds it at 783, takes the left score from 0 to 1,
leaves the right score at 0 and resets the ball to (390, 290). -/
theorem scoring_run (g : Game) (ks : List Keys) (k : Keys)
    (hx : g.ball.rect.x = 390) (hv : g.ball.velX = 3)
    (hl : g.leftScore = 0) (hr : g.rightScore = 0)
    (hlen : ks.length = 130) (hhit : g.noPaddleHit ks = true) :
    (∀ n : Nat, n < 130 → (g.runTicks (ks.take n)).ball.rect.x < 780) ∧
    (g.runTicks ks).ball.rect.x = 780 ∧
    (g.runTicks ks).leftScore = 0 ∧ (g.runTicks ks).rightScore = 0 ∧
    ((g.runTicks ks).tick k).leftScore = 1 ∧ ((g.runTicks ks).tick k).rightScore = 0 ∧
    ((g.runTicks ks).tick k).ball.rect.x = 390 ∧ ((g.runTicks ks).tick k).ball.rect.y = 290 := by
  have hfull := runTicks_straight 130 g ks (by omega) hhit hv (by omega) (by omega)
  rw [List.take_of_length_le (by omega)] at hfull
  have h780 : (g.runTicks ks).ball.rect.x = 780 := by rw [hfull.1, hx]; rfl
  have hoff : ((g.runTicks ks).handleKeys k).ball.rect.x + ((g.runTicks ks).handleKeys k).ball.velX
      + 20 > 800 := by
    rw [handleKeys_ball, h780, hfull.2.1]
    decide
  have hs := handleKeys_scores (g.runTicks ks) k
  have hlast : (g.runTicks ks).tick k = _ := update_of_offRight _ hoff
  refine ⟨?_, h780, by rw [hfull.2.2.1, hl], by rw [hfull.2.2.2, hr], ?_, ?_, ?_, ?_⟩
  · intro n hn
    have := runTicks_straight n g ks (by omega) hhit hv (by omega) (by omega)
    rw [this.1, hx]
    omega
  · rw [hlast]
    show ((g.runTicks ks).handleKeys k).leftScore + 1 = 1
    rw [hs.1, hfull.2.2.1, hl]
    rfl
  · rw [hlast]
    show ((g.runTicks ks).handleKeys k).rightScore = 0
    rw [hs.2, hfull.2.2.2, hr]
  · rw [hlast]
    rfl
  · rw [hlast]
    rfl

/-- The run of C3 from the initial state in mode 1 with no key held: 0-0 and
x = 780 after 130 ticks, 1-0 and the ball at (390, 290) after the 131st. -/
theorem scoring_run_witness :
    ((Game.start 1).runTicks (List.replicate 130 Keys.none)).ball.rect.x = 780 ∧
    (((Game.start 1).runTicks (List.replicate 130 Keys.none)).tick Keys.none).leftScore = 1 ∧
    (((Game.start 1).runTicks (List.replicate 130 Keys.none)).tick Keys.none).ball.rect.x = 390 ∧
    (((Game.start 1).runTicks (List.replicate 130 Keys.none)).tick Keys.none).ball.rect.y = 290 :=
  have h := scoring_run (Game.start 1) (List.replicate 130 Keys.none) Keys.none rfl rfl rfl rfl
    (List.length_replicate 130 Keys.none) (by decide!)
  ⟨h.2.1, h.2.2.2.2.1, h.2.2.2.2.2.2.1, h.2.2.2.2.2.2.2⟩

/-! ## Key-driven iterations are calls of `update` with moved paddles -/

theorem reachable_updateReachable (mode : Int) (g : Game) (h : Reachable mode g) :
    UpdateReachable mode g := by
  induction h with
  | start => exact UpdateReachable.start
  | frame g g' running running' polls rest k _ hf ih =>
    rw [frame_returned g g' running running' polls rest k hf]
    exact UpdateReachable.update g (g.handleKeys k).leftPaddle (g.handleKeys k).rightPaddle ih

/-! ## C10: the vertical range of the ball -/

/-- The vertical position and velocity of the ball after `update`: those of
a reset, or the advanced position with the velocity the wall check leaves. -/
theorem update_ball_vertical (g : Game) :
    (g.update.ball.rect.y = 290 ∧ g.update.ball.velY = 3) ∨
    (g.update.ball.rect.y = g.ball.rect.y + g.ball.velY ∧
      g.update.ball.velY = if g.wallFlips then -g.ball.velY else g.ball.velY) := by
  by_cases h1 : g.ball.rect.x + g.ball.velX < 0
  · left
    rw [update_of_offLeft g h1]
    exact ⟨rfl, rfl⟩
  · by_cases h2 : g.ball.rect.x + g.ball.velX + 20 > 800
    · left
      rw [update_of_offRight g h2]
      exact ⟨rfl, rfl⟩
    · right
      rw [update_of_inside g h1 h2]
      show g.bouncedBall.rect.y = _ ∧ g.bouncedBall.velY = _
      rw [bouncedBall_rect, bouncedBall_velY]
      exact ⟨rfl, rfl⟩

theorem wallFlips_iff (g : Game) :
    g.wallFlips = true ↔ (g.ball.rect.y + g.ball.velY ≤ 0 ∨ g.ball.rect.y + g.ball.velY + 20 ≥ 600) := by
  simp [Game.wallFlips]

theorem update_onTrack (g : Game) (h : g.ball.onTrack) : g.update.ball.onTrack := by
  unfold Ball.onTrack at *
  have hw := wallFlips_iff g
  rcases update_ball_vertical g with ⟨hy, hv⟩ | ⟨hy, hv⟩
  · rw [hy, hv]; omega
  · rw [hy, hv]
    by_cases hf : g.wallFlips = true
    · rw [if_pos hf]
      have := hw.mp hf
      omega
    · rw [if_neg hf]
      have : ¬ (g.ball.rect.y + g.ball.velY ≤ 0 ∨ g.ball.rect.y + g.ball.velY + 20 ≥ 600) :=
        fun hc => hf (hw.mpr hc)
      omega

theorem updateReachable_onTrack (mode : Int) (g : Game) (h : UpdateReachable mode g) :
    g.ball.onTrack := by
  induction h with
  | start =>
    show (Ball.new 390 290).onTrack
    unfold Ball.onTrack
    decide
  | update g l r _ ih => exact update_onTrack (g.place l r) ih

/-- The horizontal state of the ball in the states `update` reaches: x lies in
the window and the velocity is 3 or -3, so `x + velX` stays between -3 and
783. -/
theorem updateReachable_horizontal (mode : Int) (g : Game) (h : UpdateReachable mode g) :
    0 ≤ g.ball.rect.x ∧ g.ball.rect.x ≤ 780 ∧ (g.ball.velX = 3 ∨ g.ball.velX = -3) := by
  induction h with
  | start =>
    show (0 : Int) ≤ 390 ∧ (390 : Int) ≤ 780 ∧ ((3 : Int) = 3 ∨ (3 : Int) = -3)
    decide
  | update g l r _ ih =>
    have hb : (g.place l r).ball = g.ball := rfl
    by_cases h1 : (g.place l r).ball.rect.x + (g.place l r).ball.velX < 0
    · rw [update_of_offLeft _ h1]
      show (0 : Int) ≤ 390 ∧ (390 : Int) ≤ 780 ∧ ((3 : Int) = 3 ∨ (3 : Int) = -3)
      decide
    · by_cases h2 : (g.place l r).ball.rect.x + (g.place l r).ball.velX + 20 > 800
      · rw [update_of_offRight _ h2]
        show (0 : Int) ≤ 390 ∧ (390 : Int) ≤ 780 ∧ ((-3 : Int) = 3 ∨ (-3 : Int) = -3)
        decide
      · rw [update_of_inside _ h1 h2]
        show 0 ≤ (g.place l r).bouncedBall.rect.x ∧ (g.place l r).bouncedBall.rect.x ≤ 780 ∧
          ((g.place l r).bouncedBall.velX = 3 ∨ (g.place l r).bouncedBall.velX = -3)
        rw [bouncedBall_rect, bouncedBall_velX]
        rw [hb] at h1 h2 ⊢
        refine ⟨by simp only; omega, by simp only; omega, ?_⟩
        split <;> omega

/-- C10: in every state reached from the initial state by calls of
`Game::update`, in any mode and with the paddles anywhere before each call,
the ball satisfies `-2 ≤ y ≤ 582`; and when the wall check of one call
reverses the vertical velocity, the wall check of the next call does not. -/
theorem ball_vertical_range (mode : Int) (g : Game) (h : UpdateReachable mode g) :
    -2 ≤ g.ball.rect.y ∧ g.ball.rect.y ≤ 582 ∧
    ∀ l r l' r' : Paddle, (g.place l r).wallFlips = true →
      ((g.place l r).update.place l' r').wallFlips = false := by
  have ht := updateReachable_onTrack mode g h
  refine ⟨?_, ?_, ?_⟩
  · unfold Ball.onTrack at ht; omega
  · unfold Ball.onTrack at ht; omega
  · intro l r l' r' hf
    have hw := (wallFlips_iff (g.place l r)).mp hf
    have hv := update_ball_vertical (g.place l r)
    have hn : ¬ ((g.place l r).update.place l' r').wallFlips = true := by
      rw [wallFlips_iff]
      show ¬ ((g.place l r).update.ball.rect.y + (g.place l r).update.ball.velY ≤ 0 ∨
        (g.place l r).update.ball.rect.y + (g.place l r).update.ball.velY + 20 ≥ 600)
      rw [if_pos hf] at hv
      have hb : (g.place l r).ball = g.ball := rfl
      rw [hb] at hv hw
      unfold Ball.onTrack at ht
      omega
    simpa using hn

theorem beforeBottom_reachable : UpdateReachable 1 beforeBottom := by
  have key : ∀ n : Nat, UpdateReachable 1
      (Nat.iterate (fun g : Game => (g.place (Paddle.new 0 0) (Paddle.new 780 0)).update) n
        (Game.start 1)) := by
    intro n
    induction n with
    | zero => exact UpdateReachable.start
    | succ m ih =>
      rw [Function.iterate_succ_apply']
      exact UpdateReachable.update _ _ _ ih
  exact key 96

/-- The range of C10 at a ball about to meet the bottom wall: it stands at
y = 578, the next call puts it at 581 and flips, the call after does not. -/
theorem ball_vertical_range_witness :
    beforeBottom.ball.rect.y = 578 ∧
    (beforeBottom.place (Paddle.new 0 0) (Paddle.new 780 0)).wallFlips = true ∧
    (beforeBottom.place (Paddle.new 0 0) (Paddle.new 780 0)).update.ball.rect.y = 581 ∧
    ((beforeBottom.place (Paddle.new 0 0) (Paddle.new 780 0)).update.place
      (Paddle.new 0 0) (Paddle.new 780 0)).wallFlips = false :=
  have h := ball_vertical_range 1 beforeBottom beforeBottom_reachable
  ⟨by decide!, by decide!, by decide!,
    h.2.2 (Paddle.new 0 0) (Paddle.new 780 0) (Paddle.new 0 0) (Paddle.new 780 0) (by decide!)⟩

end Pong
